import Mathlib

/-!
# Verification of the ResearchFlow document pipeline

Shallow embedding of the `researchflow` package: the front-matter loader
(`loader.py`), the fenced-block parser (`parser.py`) and the site
discovery / index builder (`site.py`).  Python strings are modelled as
Lean `String`, Python lists as `List`, Python dicts as ordered
association lists with overwrite-on-insert, and Python objects stored in
metadata as the `PyValue` type below.
-/

namespace ResearchFlow

/-! ## Python string primitives

The source manipulates `str` values with `splitlines`, `"\n".join`,
`strip`, `strip("\n")`, `rstrip("\n")`, `lstrip("\n")`, `lower`,
`startswith` and `split(":", 1)`.  Each is embedded below.  Inputs in
this development contain no `\r`, so `splitlines` is modelled on the
single separator `\n`. -/

/-- Accumulating splitter behind `pySplitlines`: cut the character
stream at every newline; a trailing newline yields no extra empty
piece, and an empty stream with empty accumulator yields no piece. -/
def pySplitlinesAux : List Char → List Char → List String
  | [], [] => []
  | [], acc => [String.mk acc.reverse]
  | c :: cs, acc =>
    if c = '\n' then String.mk acc.reverse :: pySplitlinesAux cs []
    else pySplitlinesAux cs (c :: acc)

/-- Python `str.splitlines()` for `\x0a`-separated text: no trailing
empty piece when the text ends in a newline, and the empty string gives
the empty list. -/
def pySplitlines (s : String) : List String :=
  pySplitlinesAux s.toList []

/-- Python `"\n".join(lines)`. -/
def joinLines : List String → String
  | [] => ""
  | [l] => l
  | l :: rest => l ++ "\n" ++ joinLines rest

/-- Python `s.lstrip("\n")`. -/
def lstripNl (s : String) : String :=
  String.mk (s.toList.dropWhile (fun c => c == '\n'))

/-- Python `s.rstrip("\n")`. -/
def rstripNl (s : String) : String :=
  String.mk ((s.toList.reverse.dropWhile (fun c => c == '\n')).reverse)

/-- Python `s.strip("\n")`: strip newline characters from both ends. -/
def stripNl (s : String) : String :=
  lstripNl (rstripNl s)

/-- Python `s.lower()` (ASCII case folding; all relevant inputs are ASCII). -/
def pyLower (s : String) : String :=
  String.mk (s.toList.map Char.toLower)

/-- Python `s.strip()`: drop ASCII whitespace from both ends (the
whitespace classes agree on the inputs at hand). -/
def pyStrip (s : String) : String :=
  String.mk
    (((s.toList.dropWhile Char.isWhitespace).reverse.dropWhile
        Char.isWhitespace).reverse)

/-- Python `s.startswith(pre)`. -/
def pyStartsWith (s pre : String) : Bool :=
  pre.toList.isPrefixOf s.toList

/-- Python `c in s` for a one-character needle. -/
def pyContainsChar (s : String) (c : Char) : Bool :=
  s.toList.contains c

/-- Python `s.split(sep, 1)` for a one-character separator, returning the
two pieces around the first occurrence (used only when the separator is
known to occur). -/
def pySplit1 (s : String) (c : Char) : String × String :=
  let l := s.toList
  (String.mk (l.takeWhile (fun x => x ≠ c)),
   String.mk ((l.dropWhile (fun x => x ≠ c)).tail))

/-! ## Python values

Metadata entries hold the YAML-parsed Python objects: strings, ints,
booleans, `None`, lists and dicts. -/

/-- The subset of Python values that can appear in parsed metadata. -/
inductive PyValue where
  | str (v : String)
  | int (v : Int)
  | bool (v : Bool)
  | none
  | list (vs : List PyValue)
  | dict (entries : List (String × PyValue))

/-- Python truthiness on `PyValue`. -/
def pyTruthy : PyValue → Bool
  | .str v => v != ""
  | .int v => v != 0
  | .bool b => b
  | .none => false
  | .list [] => false
  | .list (_ :: _) => true
  | .dict [] => false
  | .dict (_ :: _) => true

/-- A single-quote character, used by Python `repr` of strings. -/
def pyQuote : String := String.singleton (Char.ofNat 39)

mutual

/-- Python `repr` on the embedded values (as used by `str` of containers). -/
def pyRepr : PyValue → String
  | .str v => pyQuote ++ v ++ pyQuote
  | .int v => toString v
  | .bool b => if b then "True" else "False"
  | .none => "None"
  | .list vs => "[" ++ String.intercalate ", " (pyReprList vs) ++ "]"
  | .dict es => "\x7b" ++ String.intercalate ", " (pyReprEntries es) ++ "\x7d"

/-- `repr` of each element of a list. -/
def pyReprList : List PyValue → List String
  | [] => []
  | v :: vs => pyRepr v :: pyReprList vs

/-- `repr` of each key/value pair of a dict. -/
def pyReprEntries : List (String × PyValue) → List String
  | [] => []
  | (k, v) :: es => (pyQuote ++ k ++ pyQuote ++ ": " ++ pyRepr v) :: pyReprEntries es

end

/-- Python `str(x)`: the string itself for strings, `repr`-style text for
everything else. -/
def pyStr : PyValue → String
  | .str v => v
  | v => pyRepr v

/-- Python `d.get(k)` on an association-list dict: the stored value, or
`None` when the key is absent. -/
def dictGet (es : List (String × PyValue)) (k : String) : PyValue :=
  match es.find? (fun e => e.1 == k) with
  | some e => e.2
  | Option.none => .none

/-- `metadata.get(k)` as used downstream of the loader.  Defined on
mappings; a non-mapping receiver yields `None` here (Python would raise,
a path no claim exercises). -/
def pyGet : PyValue → String → PyValue
  | .dict es, k => dictGet es k
  | _, _ => .none

/-- Python dict assignment `d[k] = v` on an ordered association list:
overwrite in place when the key exists, else append. -/
def dictInsert (es : List (String × String)) (k v : String) :
    List (String × String) :=
  if es.any (fun e => e.1 == k) then
    es.map (fun e => if e.1 == k then (k, v) else e)
  else es ++ [(k, v)]

/-- Python `d.get(k)` on a string/string dict, as `Option`. -/
def headerGet (es : List (String × String)) (k : String) : Option String :=
  (es.find? (fun e => e.1 == k)).map (fun e => e.2)

/-! ## Front-matter loader (`loader.py`)

`load_rflow_file` reads a file, splits the text into lines, demands that
line 1 strips to `---`, locates the closing delimiter with
`lines.index("---", 1)` (exact string equality, no trimming), parses the
lines in between with `yaml.safe_load(...) or {}`, and takes the rest,
`lstrip`ped of newlines, as the body.  The filesystem read is elided:
the embedding takes the file text directly.  The YAML library is an
external collaborator and enters as the `parseYaml` parameter. -/

/-- The raw document produced by `load_rflow_file`
(`loader.RFlowRawDocument`); the path is kept as a string. -/
structure RFlowRawDocument where
  metadata : PyValue
  body : String
  path : String

/-- The two `ValueError`s `load_rflow_file` can raise (the spec calls
them `FormatError`); no other failure exists in the loader. -/
inductive LoadError where
  | missingOpeningDelimiter
  | missingClosingDelimiter
  deriving DecidableEq

/-- Python `lines.index("---", 1)` restricted to the tail of the line
list: the index of the first element *exactly* equal to `---`. -/
def findCloseIdx : List String → Option Nat
  | [] => Option.none
  | l :: rest =>
    if l = "---" then some 0 else (findCloseIdx rest).map (· + 1)

/-- `load_rflow_file`, from the line list onward (after `splitlines`). -/
def loadFromLines (parseYaml : String → PyValue) (lines : List String)
    (path : String) : Except LoadError RFlowRawDocument :=
  match lines with
  | [] => .error .missingOpeningDelimiter
  | first :: rest =>
    if pyStrip first ≠ "---" then .error .missingOpeningDelimiter
    else
      match findCloseIdx rest with
      | Option.none => .error .missingClosingDelimiter
      | some k =>
        let yamlBlock := joinLines (rest.take k)
        let bodyBlock := lstripNl (joinLines (rest.drop (k + 1)))
        let parsed := parseYaml yamlBlock
        let metadata := if pyTruthy parsed then parsed else .dict []
        .ok { metadata := metadata, body := bodyBlock, path := path }

/-- `load_rflow_file` on the file text. -/
def load_rflow_file (parseYaml : String → PyValue) (text : String)
    (path : String) : Except LoadError RFlowRawDocument :=
  loadFromLines parseYaml (pySplitlines text) path

/-! ## Block model (`model.py`) -/

/-- The closed set of block variants (`MarkdownBlock`, `SummaryBlock`,
`FigureBlock`, `LogBlock`, `CodeBlock`). -/
inductive Block where
  | markdown (content : String)
  | summary (content : String)
  | figure (path : String) (caption : Option String) (alt : Option String)
  | log (content : String)
  | code (language : Option String) (code : String) (caption : Option String)
  deriving DecidableEq

/-- The parsed document (`model.RFlowDocument`). -/
structure RFlowDocument where
  metadata : PyValue
  blocks : List Block
  path : String

/-! ## Block parser (`parser.py`)

The Python main loop walks an index over the line list; the embedding
passes the remaining suffix instead.  Each sub-parser receives the lines
collected by `_consume_until_end_marker` together with the suffix after
the closing sigil. -/

/-- `_consume_until_end_marker`: collect lines until one strips to
`:::`; returns the collected lines and the suffix after the closing
marker (everything collected, empty suffix, when no marker exists). -/
def consumeUntilEndMarker : List String → List String × List String
  | [] => ([], [])
  | l :: rest =>
    if pyStrip l = ":::" then ([], rest)
    else
      let r := consumeUntilEndMarker rest
      (l :: r.1, r.2)

theorem consumeUntilEndMarker_remaining_length (ls : List String) :
    (consumeUntilEndMarker ls).2.length ≤ ls.length := by
  induction ls with
  | nil => simp [consumeUntilEndMarker]
  | cons l rest ih =>
    by_cases h : pyStrip l = ":::"
    · simp [consumeUntilEndMarker, h]
    · simp only [consumeUntilEndMarker, h, if_false, List.length_cons]
      omega

/-- `_parse_summary_block` content: joined lines stripped of newlines on
both ends. -/
def summaryContent (ls : List String) : String :=
  stripNl (joinLines ls)

/-- `_parse_log_block` content: joined lines stripped of trailing
newlines only. -/
def logContent (ls : List String) : String :=
  rstripNl (joinLines ls)

/-- `_parse_figure_block` on the collected lines: `key: value` lines fill
a dict; blank or colon-free lines are skipped; `path` defaults to `""`,
`caption` and `alt` to absent. -/
def parseFigureContent (contentLines : List String) : Block :=
  let data := contentLines.foldl
    (fun d rawLine =>
      let stripped := pyStrip rawLine
      if stripped = "" then d
      else if ¬ pyContainsChar stripped ':' then d
      else
        let kv := pySplit1 stripped ':'
        dictInsert d (pyStrip kv.1) (pyStrip kv.2))
    []
  .figure ((headerGet data "path").getD "") (headerGet data "caption")
    (headerGet data "alt")

/-- The `for` loop of `_parse_code_block`: two-phase consumption with
the `in_header` flag, the header dict and the accumulated code lines. -/
def codeBlockLoop : List String → Bool → List (String × String) →
    List String → List (String × String) × List String
  | [], _, header, codeLines => (header, codeLines)
  | rawLine :: rest, inHeader, header, codeLines =>
    if inHeader then
      if pyStrip rawLine = "" then
        codeBlockLoop rest false header codeLines
      else
        let stripped := pyStrip rawLine
        if pyContainsChar stripped ':' then
          let kv := pySplit1 stripped ':'
          codeBlockLoop rest true (dictInsert header (pyStrip kv.1) (pyStrip kv.2)) codeLines
        else
          codeBlockLoop rest false header (codeLines ++ [rawLine])
    else
      codeBlockLoop rest false header (codeLines ++ [rawLine])

/-- `_parse_code_block` on the collected lines. -/
def parseCodeContent (contentLines : List String) : Block :=
  let r := codeBlockLoop contentLines true [] []
  .code (headerGet r.1 "lang") (rstripNl (joinLines r.2)) (headerGet r.1 "caption")

/-- `flush_plain_block`: emit the pending plain lines as a Markdown
block when their joined, newline-trimmed content is non-empty. -/
def flushPlain (blocks : List Block) (current : List String) : List Block :=
  match current with
  | [] => blocks
  | _ =>
    let content := stripNl (joinLines current)
    if content = "" then blocks else blocks ++ [.markdown content]

/-- The main `while` loop of `parse_rflow`, over the remaining lines. -/
def parseLinesAux (blocks : List Block) (current : List String) :
    List String → List Block
  | [] => flushPlain blocks current
  | line :: rest =>
    let stripped := pyStrip line
    if ¬ pyStartsWith stripped ":::" then
      parseLinesAux blocks (current ++ [line]) rest
    else
      let blocks2 := flushPlain blocks current
      if stripped = ":::summary" then
        let r := consumeUntilEndMarker rest
        parseLinesAux (blocks2 ++ [.summary (summaryContent r.1)]) [] r.2
      else if stripped = ":::figure" then
        let r := consumeUntilEndMarker rest
        parseLinesAux (blocks2 ++ [parseFigureContent r.1]) [] r.2
      else if stripped = ":::log" then
        let r := consumeUntilEndMarker rest
        parseLinesAux (blocks2 ++ [.log (logContent r.1)]) [] r.2
      else if stripped = ":::code" then
        let r := consumeUntilEndMarker rest
        parseLinesAux (blocks2 ++ [parseCodeContent r.1]) [] r.2
      else
        parseLinesAux blocks2 [line] rest
  termination_by lines => lines.length
  decreasing_by
    all_goals simp only [List.length_cons]
    all_goals first
      | omega
      | (have h := consumeUntilEndMarker_remaining_length rest; omega)

/-- The body half of `parse_rflow`: split the body into lines and run
the main loop with empty block list and empty pending buffer. -/
def parseRflowBody (body : String) : List Block :=
  parseLinesAux [] [] (pySplitlines body)

/-- `parse_rflow`: blocks from the body; metadata and path carried over
from the raw document. -/
def parse_rflow (raw : RFlowRawDocument) : RFlowDocument :=
  { metadata := raw.metadata, blocks := parseRflowBody raw.body, path := raw.path }

/-! ## Site discovery and index builder (`site.py`) -/

/-- A discovered document (`site.SiteDocument`). -/
structure SiteDocument where
  kind : String
  slug : String
  sourcePath : String
  document : RFlowDocument

/-- The kind resolution of `discover_documents` (site.py lines 57-60):
`str(doc.metadata.get("type") or kind).lower()`, kept when it is `note`
or `experiment`, else the directory-implied kind. -/
def resolveKind (metadata : List (String × PyValue)) (dirKind : String) : String :=
  let v := dictGet metadata "type"
  let metaType := pyLower (pyStr (if pyTruthy v then v else .str dirKind))
  if metaType ≠ "note" ∧ metaType ≠ "experiment" then dirKind else metaType

/-- The dictionary produced by `_document_to_index_item` (the fields an
index template consumes). -/
structure IndexItem where
  title : String
  kind : String
  slug : String
  url : String
  date : PyValue
  summary : PyValue
  tags : List String

/-- The tag normalization inside `_document_to_index_item`:
`meta.get("tags") or []`, then a string becomes a one-element list, a
list is stringified element-wise, anything else becomes empty. -/
def normalizeTags (v : PyValue) : List String :=
  let t := if pyTruthy v then v else .list []
  match t with
  | .str s => [s]
  | .list vs => vs.map pyStr
  | _ => []

/-- `_document_to_index_item`. -/
def documentToIndexItem (siteDoc : SiteDocument) : IndexItem :=
  let meta := siteDoc.document.metadata
  let titleV := pyGet meta "title"
  let sectionName := if siteDoc.kind == "note" then "notes" else "experiments"
  { title := if pyTruthy titleV then pyStr titleV else siteDoc.slug
    kind := siteDoc.kind
    slug := siteDoc.slug
    url := "/" ++ sectionName ++ "/" ++ siteDoc.slug ++ "/"
    date := pyGet meta "date"
    summary := pyGet meta "summary"
    tags := normalizeTags (pyGet meta "tags") }

/-- The `sort_key` closure of `build_indexes`: `str(date)` when the date
is not `None`, else the empty string. -/
def sortKey (item : IndexItem) : String :=
  match item.date with
  | .none => ""
  | v => pyStr v

/-- Python string `<=`: lexicographic comparison by code point. -/
def pyLeChars : List Char → List Char → Bool
  | [], _ => true
  | _ :: _, [] => false
  | a :: as, b :: bs => if a = b then pyLeChars as bs else decide (a < b)

/-- Python `a <= b` on strings. -/
def pyStrLe (a b : String) : Bool :=
  pyLeChars a.toList b.toList

/-- Stable insertion of `x` into a date-descending list: `x` goes in
front of the first element whose key does not exceed its own, so equal
keys keep their original relative order. -/
def orderedInsertDesc (x : IndexItem) : List IndexItem → List IndexItem
  | [] => [x]
  | y :: ys =>
    if pyStrLe (sortKey y) (sortKey x) then x :: y :: ys
    else y :: orderedInsertDesc x ys

/-- Python `list.sort(key=sort_key, reverse=True)`: a stable
date-descending sort (Python timsort is stable; any stable sort with
the same comparator yields the same list). -/
def sortByDateDesc : List IndexItem → List IndexItem
  | [] => []
  | x :: xs => orderedInsertDesc x (sortByDateDesc xs)

/-- One `tag_map[tag].append(item)` pass over an item's tags, on the map
read as a function from tag to item list. -/
def tagMapAdd (m : String → List IndexItem) (item : IndexItem) :
    String → List IndexItem :=
  item.tags.foldl (fun m t s => if s = t then m s ++ [item] else m s) m

/-- The tag-map loop of `build_indexes`: iterate the items in order and
append each to the entry of every tag it carries. -/
def buildTagMap (items : List IndexItem) : String → List IndexItem :=
  items.foldl tagMapAdd (fun _ => [])

/-- The item-list computation of `build_indexes` (rendering elided):
project and filter by kind, then sort each list date-descending. -/
def buildIndexLists (documents : List SiteDocument) :
    List IndexItem × List IndexItem :=
  let noteItems := (documents.filter (fun d => d.kind == "note")).map
    documentToIndexItem
  let experimentItems := (documents.filter (fun d => d.kind == "experiment")).map
    documentToIndexItem
  (sortByDateDesc noteItems, sortByDateDesc experimentItems)

/-- The tag map of `build_indexes`: built over the post-sort notes list
followed by the post-sort experiments list. -/
def buildTagMapOfDocs (documents : List SiteDocument) : String → List IndexItem :=
  let lists := buildIndexLists documents
  buildTagMap (lists.1 ++ lists.2)

/-! ## Unfolding lemmas for the parser main loop -/

theorem parseLinesAux_nil (blocks : List Block) (current : List String) :
    parseLinesAux blocks current [] = flushPlain blocks current := by
  rw [parseLinesAux]

theorem parseLinesAux_plain (blocks : List Block) (current : List String)
    (line : String) (rest : List String)
    (h : pyStartsWith (pyStrip line) ":::" = false) :
    parseLinesAux blocks current (line :: rest) =
      parseLinesAux blocks (current ++ [line]) rest := by
  rw [parseLinesAux]
  simp [h]

theorem parseLinesAux_summary (blocks : List Block) (current : List String)
    (line : String) (rest : List String) (h : pyStrip line = ":::summary") :
    parseLinesAux blocks current (line :: rest) =
      parseLinesAux
        (flushPlain blocks current ++
          [.summary (summaryContent (consumeUntilEndMarker rest).1)])
        [] (consumeUntilEndMarker rest).2 := by
  rw [parseLinesAux]
  simp [h, show pyStartsWith ":::summary" ":::" = true from by decide]

theorem parseLinesAux_figure (blocks : List Block) (current : List String)
    (line : String) (rest : List String) (h : pyStrip line = ":::figure") :
    parseLinesAux blocks current (line :: rest) =
      parseLinesAux
        (flushPlain blocks current ++
          [parseFigureContent (consumeUntilEndMarker rest).1])
        [] (consumeUntilEndMarker rest).2 := by
  rw [parseLinesAux]
  simp [h, show pyStartsWith ":::figure" ":::" = true from by decide]

theorem parseLinesAux_log (blocks : List Block) (current : List String)
    (line : String) (rest : List String) (h : pyStrip line = ":::log") :
    parseLinesAux blocks current (line :: rest) =
      parseLinesAux
        (flushPlain blocks current ++
          [.log (logContent (consumeUntilEndMarker rest).1)])
        [] (consumeUntilEndMarker rest).2 := by
  rw [parseLinesAux]
  simp [h, show pyStartsWith ":::log" ":::" = true from by decide]

theorem parseLinesAux_code (blocks : List Block) (current : List String)
    (line : String) (rest : List String) (h : pyStrip line = ":::code") :
    parseLinesAux blocks current (line :: rest) =
      parseLinesAux
        (flushPlain blocks current ++
          [parseCodeContent (consumeUntilEndMarker rest).1])
        [] (consumeUntilEndMarker rest).2 := by
  rw [parseLinesAux]
  simp [h, show pyStartsWith ":::code" ":::" = true from by decide]

theorem parseLinesAux_unknown (blocks : List Block) (current : List String)
    (line : String) (rest : List String)
    (h1 : pyStartsWith (pyStrip line) ":::" = true)
    (h2 : pyStrip line ≠ ":::summary") (h3 : pyStrip line ≠ ":::figure")
    (h4 : pyStrip line ≠ ":::log") (h5 : pyStrip line ≠ ":::code") :
    parseLinesAux blocks current (line :: rest) =
      parseLinesAux (flushPlain blocks current) [line] rest := by
  rw [parseLinesAux]
  simp [h1, h2, h3, h4, h5]

theorem flushPlain_nil (blocks : List Block) : flushPlain blocks [] = blocks := rfl

theorem consumeUntilEndMarker_no_marker (ls : List String)
    (h : ∀ l ∈ ls, pyStrip l ≠ ":::") :
    consumeUntilEndMarker ls = (ls, []) := by
  induction ls with
  | nil => rfl
  | cons l rest ih =>
    have hl : pyStrip l ≠ ":::" := h l (by simp)
    simp [consumeUntilEndMarker, hl, ih (fun x hx => h x (by simp [hx]))]

theorem parseLinesAux_all_plain (lines : List String) :
    ∀ (blocks : List Block) (current : List String),
      (∀ l ∈ lines, pyStartsWith (pyStrip l) ":::" = false) →
      parseLinesAux blocks current lines = flushPlain blocks (current ++ lines) := by
  induction lines with
  | nil => intro blocks current _; simp [parseLinesAux_nil]
  | cons line rest ih =>
    intro blocks current h
    rw [parseLinesAux_plain blocks current line rest (h line (by simp))]
    rw [ih blocks (current ++ [line]) (fun x hx => h x (by simp [hx]))]
    simp

theorem flushPlain_empty (ls : List String) :
    flushPlain [] ls =
      if stripNl (joinLines ls) = "" then []
      else [.markdown (stripNl (joinLines ls))] := by
  cases ls with
  | nil => simp [flushPlain, show stripNl (joinLines []) = "" from by decide]
  | cons a as => simp [flushPlain]

/-! ## Claim C10 -/

/-- C10: the `RFlowDocument` returned by `parse_rflow` carries the raw
document's metadata and source path unchanged; parsing computes only the
block list. -/
theorem parse_preserves_metadata_and_path (raw : RFlowRawDocument) :
    (parse_rflow raw).metadata = raw.metadata ∧ (parse_rflow raw).path = raw.path :=
  ⟨rfl, rfl⟩

/-! ## Claim C9 -/

/-- C9: when a recognized block opener is never followed by a line that
strips to `:::`, the consume loop returns every remaining line with an
empty remainder, and parsing (a total function) puts all of them into
that one block with no error. -/
theorem missing_close_consumes_to_end (blocks : List Block)
    (current rest : List String) (h : ∀ l ∈ rest, pyStrip l ≠ ":::") :
    consumeUntilEndMarker rest = (rest, []) ∧
    parseLinesAux blocks current (":::summary" :: rest) =
      flushPlain blocks current ++ [.summary (summaryContent rest)] ∧
    parseLinesAux blocks current (":::figure" :: rest) =
      flushPlain blocks current ++ [parseFigureContent rest] ∧
    parseLinesAux blocks current (":::log" :: rest) =
      flushPlain blocks current ++ [.log (logContent rest)] ∧
    parseLinesAux blocks current (":::code" :: rest) =
      flushPlain blocks current ++ [parseCodeContent rest] := by
  have hc := consumeUntilEndMarker_no_marker rest h
  refine ⟨hc, ?_, ?_, ?_, ?_⟩
  · rw [parseLinesAux_summary blocks current _ rest (by decide), hc,
      parseLinesAux_nil, flushPlain_nil]
  · rw [parseLinesAux_figure blocks current _ rest (by decide), hc,
      parseLinesAux_nil, flushPlain_nil]
  · rw [parseLinesAux_log blocks current _ rest (by decide), hc,
      parseLinesAux_nil, flushPlain_nil]
  · rw [parseLinesAux_code blocks current _ rest (by decide), hc,
      parseLinesAux_nil, flushPlain_nil]

/-- Witness for C9 at the one-line tail `["x"]`. -/
theorem missing_close_consumes_to_end_witness :
    consumeUntilEndMarker ["x"] = (["x"], []) ∧
    parseLinesAux [] [] [":::summary", "x"] =
      flushPlain [] [] ++ [.summary (summaryContent ["x"])] ∧
    parseLinesAux [] [] [":::figure", "x"] =
      flushPlain [] [] ++ [parseFigureContent ["x"]] ∧
    parseLinesAux [] [] [":::log", "x"] =
      flushPlain [] [] ++ [.log (logContent ["x"])] ∧
    parseLinesAux [] [] [":::code", "x"] =
      flushPlain [] [] ++ [parseCodeContent ["x"]] :=
  missing_close_consumes_to_end [] [] ["x"] (by decide)

/-! ## Claim C8 -/

/-- C8 (amended): for a body none of whose lines strips to a `:::`
prefix, parsing yields a single Markdown block holding the joined lines
with leading and trailing newline characters stripped, or no block at
all exactly when that stripped content is empty.  (A body of blanks
such as `"   "` is *not* empty after `strip("\n")` and still yields a
block.) -/
theorem plain_body_parse_characterization (body : String)
    (h : ∀ l ∈ pySplitlines body, pyStartsWith (pyStrip l) ":::" = false) :
    parseRflowBody body =
      if stripNl (joinLines (pySplitlines body)) = "" then []
      else [.markdown (stripNl (joinLines (pySplitlines body)))] := by
  rw [parseRflowBody, parseLinesAux_all_plain _ [] [] h]
  simp [flushPlain_empty]

/-- Witness for C8 on the two-line body `"hello\nworld"`. -/
theorem plain_body_parse_characterization_witness :
    parseRflowBody "hello\nworld" =
      if stripNl (joinLines (pySplitlines "hello\nworld")) = "" then []
      else [.markdown (stripNl (joinLines (pySplitlines "hello\nworld")))] :=
  plain_body_parse_characterization "hello\nworld" (by decide)

/-- C8 counterexample: the body `"   "` is whitespace-only (it strips
to the empty string) yet parses to one Markdown block, not zero,
because `flush_plain_block` strips only newline characters. -/
theorem whitespace_body_yields_markdown_block :
    pyStrip "   " = "" ∧ parseRflowBody "   " = [.markdown "   "] := by
  constructor
  · decide
  · have h : pySplitlines "   " = ["   "] := by decide
    rw [parseRflowBody, h, parseLinesAux_all_plain _ [] [] (by decide)]
    decide

/-! ## Claim C1 -/

/-- Shared evaluation: the spec example `:::unknown` / `text` / `:::`
parses to two Markdown blocks. -/
theorem unknownMarker_eval :
    parseRflowBody ":::unknown\ntext\n:::" =
      [.markdown ":::unknown\ntext", .markdown ":::"] := by
  have h : pySplitlines ":::unknown\ntext\n:::" = [":::unknown", "text", ":::"] := by
    decide
  rw [parseRflowBody, h,
    parseLinesAux_unknown _ _ _ _ (by decide) (by decide) (by decide) (by decide)
      (by decide),
    parseLinesAux_plain _ _ _ _ (by decide),
    parseLinesAux_unknown _ _ _ _ (by decide) (by decide) (by decide) (by decide)
      (by decide),
    parseLinesAux_nil]
  decide

/-- C1 counterexample: the body `:::unknown` / `text` / `:::` parses to
*two* Markdown blocks (`":::unknown\ntext"` and `":::"`), not to a
single block holding all three lines: the bare `:::` line, itself an
unrecognized marker, flushes the pending buffer first. -/
theorem unknownMarker_example_two_blocks :
    parseRflowBody ":::unknown\ntext\n:::" =
      [.markdown ":::unknown\ntext", .markdown ":::"] ∧
    (parseRflowBody ":::unknown\ntext\n:::").length ≠ 1 :=
  ⟨unknownMarker_eval, by rw [unknownMarker_eval]; decide⟩

/-- C1 (amended): a line starting with `:::` that matches no recognized
type first flushes the pending buffer (as every `:::` line does) and is
then placed in the fresh buffer; consequently the example body
`:::unknown` / `text` / `:::` parses to the two Markdown blocks
`":::unknown\ntext"` and `":::"`. -/
theorem unknownMarker_flush_then_buffer :
    (parseRflowBody ":::unknown\ntext\n:::" =
      [.markdown ":::unknown\ntext", .markdown ":::"]) ∧
    ∀ (blocks : List Block) (current : List String) (line : String)
      (rest : List String),
      pyStartsWith (pyStrip line) ":::" = true →
      pyStrip line ≠ ":::summary" → pyStrip line ≠ ":::figure" →
      pyStrip line ≠ ":::log" → pyStrip line ≠ ":::code" →
      parseLinesAux blocks current (line :: rest) =
        parseLinesAux (flushPlain blocks current) [line] rest :=
  ⟨unknownMarker_eval, fun blocks current line rest h1 h2 h3 h4 h5 =>
    parseLinesAux_unknown blocks current line rest h1 h2 h3 h4 h5⟩

/-- Witness for C1 at the marker line `":::x"` over buffer `["a"]`. -/
theorem unknownMarker_flush_then_buffer_witness :
    parseLinesAux [] ["a"] [":::x"] = parseLinesAux (flushPlain [] ["a"]) [":::x"] [] :=
  unknownMarker_flush_then_buffer.2 [] ["a"] ":::x" [] (by decide) (by decide)
    (by decide) (by decide) (by decide)

/-! ## Claim C6 -/

/-- C6: the code sub-parser consumes in two phases: in header phase a
blank line ends the phase and is dropped, a line with a colon becomes a
header pair, and the first non-blank colon-free line ends the phase and
opens the code body; the spec example with header `lang: python`, a
blank line and `print(1)` yields exactly
`Code(language := "python", code := "print(1)", caption := absent)`. -/
theorem codeBlock_two_phase :
    (∀ (line : String) (rest : List String) (header : List (String × String))
       (codeLines : List String), pyStrip line = "" →
       codeBlockLoop (line :: rest) true header codeLines =
         codeBlockLoop rest false header codeLines) ∧
    (∀ (line : String) (rest : List String) (header : List (String × String))
       (codeLines : List String), pyStrip line ≠ "" →
       pyContainsChar (pyStrip line) ':' = true →
       codeBlockLoop (line :: rest) true header codeLines =
         codeBlockLoop rest true
           (dictInsert header (pyStrip (pySplit1 (pyStrip line) ':').1)
             (pyStrip (pySplit1 (pyStrip line) ':').2)) codeLines) ∧
    (∀ (line : String) (rest : List String) (header : List (String × String))
       (codeLines : List String), pyStrip line ≠ "" →
       pyContainsChar (pyStrip line) ':' = false →
       codeBlockLoop (line :: rest) true header codeLines =
         codeBlockLoop rest false header (codeLines ++ [line])) ∧
    parseRflowBody ":::code\nlang: python\n\nprint(1)\n:::" =
      [.code (some "python") "print(1)" Option.none] := by
  refine ⟨?_, ?_, ?_, ?_⟩
  · intro line rest header codeLines h
    simp [codeBlockLoop, h]
  · intro line rest header codeLines h hc
    simp [codeBlockLoop, h, hc]
  · intro line rest header codeLines h hc
    simp [codeBlockLoop, h, hc]
  · have hs : pySplitlines ":::code\nlang: python\n\nprint(1)\n:::" =
        [":::code", "lang: python", "", "print(1)", ":::"] := by decide
    have hc : consumeUntilEndMarker ["lang: python", "", "print(1)", ":::"] =
        (["lang: python", "", "print(1)"], []) := by decide
    rw [parseRflowBody, hs, parseLinesAux_code _ _ _ _ (by decide), hc,
      parseLinesAux_nil]
    decide

/-- Witness for C6: one header line, one blank, one code line,
stepping the loop through its three phase rules. -/
theorem codeBlock_two_phase_witness :
    codeBlockLoop ["lang: python"] true [] [] =
      codeBlockLoop [] true
        (dictInsert [] (pyStrip (pySplit1 (pyStrip "lang: python") ':').1)
          (pyStrip (pySplit1 (pyStrip "lang: python") ':').2)) [] ∧
    codeBlockLoop [""] true [] [] = codeBlockLoop [] false [] [] ∧
    codeBlockLoop ["print(1)"] true [] [] = codeBlockLoop [] false [] ["print(1)"] :=
  ⟨codeBlock_two_phase.2.1 "lang: python" [] [] [] (by decide) (by decide),
   codeBlock_two_phase.1 "" [] [] [] (by decide),
   codeBlock_two_phase.2.2.1 "print(1)" [] [] [] (by decide) (by decide)⟩

/-! ## Claim C2 -/

/-- C2 counterexample: metadata `type: "Note"` in the experiments
directory resolves to kind `"note"` — the resolution lowercases the
field, so a value differing only in letter case is *accepted*, not
replaced by the directory-implied kind as the claim states. -/
theorem resolveKind_case_insensitive_example :
    resolveKind [("type", PyValue.str "Note")] "experiment" = "note" ∧
    ("note" : String) ≠ "experiment" := by
  exact ⟨by decide, by decide⟩

/-- C2 (amended): the resolved kind is `str(type).lower()` whenever the
`type` field is truthy and its lowercased string form is `note` or
`experiment` (case-insensitively), and the directory-implied kind in
every other case (field absent, falsy, or lowercasing to neither
recognized kind). -/
theorem resolveKind_characterization (entries : List (String × PyValue))
    (dirKind : String) (hd : dirKind = "note" ∨ dirKind = "experiment") :
    (pyTruthy (dictGet entries "type") = true ∧
       pyLower (pyStr (dictGet entries "type")) = "note" →
       resolveKind entries dirKind = "note") ∧
    (pyTruthy (dictGet entries "type") = true ∧
       pyLower (pyStr (dictGet entries "type")) = "experiment" →
       resolveKind entries dirKind = "experiment") ∧
    ((pyTruthy (dictGet entries "type") = false ∨
       (pyLower (pyStr (dictGet entries "type")) ≠ "note" ∧
        pyLower (pyStr (dictGet entries "type")) ≠ "experiment")) →
       resolveKind entries dirKind = dirKind) := by
  refine ⟨?_, ?_, ?_⟩
  · rintro ⟨h1, h2⟩
    simp [resolveKind, h1, h2]
  · rintro ⟨h1, h2⟩
    simp [resolveKind, h1, h2]
  · rintro (h | ⟨h1, h2⟩)
    · rcases hd with rfl | rfl
      · simp [resolveKind, h,
          show pyLower (pyStr (PyValue.str "note")) = "note" from by decide]
      · simp [resolveKind, h,
          show pyLower (pyStr (PyValue.str "experiment")) = "experiment" from by
            decide]
    · by_cases ht : pyTruthy (dictGet entries "type")
      · simp [resolveKind, ht, h1, h2]
      · rcases hd with rfl | rfl
        · simp [resolveKind, ht,
            show pyLower (pyStr (PyValue.str "note")) = "note" from by decide]
        · simp [resolveKind, ht,
            show pyLower (pyStr (PyValue.str "experiment")) = "experiment" from by
              decide]

/-- Witness for C2: uppercase `type: "EXPERIMENT"` inside the notes
directory resolves to kind `"experiment"`. -/
theorem resolveKind_characterization_witness :
    resolveKind [("type", PyValue.str "EXPERIMENT")] "note" = "experiment" :=
  (resolveKind_characterization [("type", PyValue.str "EXPERIMENT")] "note"
    (Or.inl rfl)).2.1 ⟨by decide, by decide⟩

/-! ## Claim C3 -/

/-- C3 counterexample: a front-matter block whose YAML parse is a
sequence loads *successfully*, returning a `RFlowRawDocument` whose
metadata is that sequence, not a mapping — no `MetadataError` (or any
error) is raised, contrary to the claim. -/
theorem load_accepts_sequence_metadata :
    load_rflow_file (fun _ => PyValue.list [PyValue.str "a"])
        "---\n- a\n---\nbody" "f.rflow" =
      .ok { metadata := PyValue.list [PyValue.str "a"], body := "body",
            path := "f.rflow" } ∧
    ∀ es, PyValue.list [PyValue.str "a"] ≠ PyValue.dict es := by
  refine ⟨rfl, fun es h => by cases h⟩

/-- C3 (amended): the loader performs no shape validation on the parsed
front matter: whatever truthy value the YAML parser returns — mapping,
sequence or scalar — becomes the raw document's metadata verbatim (a
falsy parse becomes the empty mapping); the only load-time failures are
the two missing-delimiter format errors, and no `MetadataError` exists. -/
theorem load_metadata_unvalidated (v : PyValue) (hv : pyTruthy v = true) :
    load_rflow_file (fun _ => v) "---\nk: 1\n---\nbody" "p" =
      .ok { metadata := v, body := "body", path := "p" } := by
  have hs : pySplitlines "---\nk: 1\n---\nbody" = ["---", "k: 1", "---", "body"] := by
    decide
  rw [load_rflow_file, hs]
  simp [loadFromLines, findCloseIdx, hv,
    show pyStrip "---" = "---" from by decide,
    show lstripNl (joinLines ["body"]) = "body" from by decide]

/-- Witness for C3 at the sequence value `[1, 2]`. -/
theorem load_metadata_unvalidated_witness :
    load_rflow_file (fun _ => PyValue.list [PyValue.int 1, PyValue.int 2])
        "---\nk: 1\n---\nbody" "p" =
      .ok { metadata := PyValue.list [PyValue.int 1, PyValue.int 2],
            body := "body", path := "p" } :=
  load_metadata_unvalidated (PyValue.list [PyValue.int 1, PyValue.int 2]) (by decide)

/-! ## Claim C4 -/

theorem findCloseIdx_eq_none_iff (ls : List String) :
    findCloseIdx ls = Option.none ↔ "---" ∉ ls := by
  induction ls with
  | nil => simp [findCloseIdx]
  | cons l rest ih =>
    by_cases h : l = "---"
    · simp [findCloseIdx, h]
    · simp only [findCloseIdx, h, if_false, Option.map_eq_none', ih,
        List.mem_cons, not_or]
      exact ⟨fun hn => ⟨fun hm => h hm.symm, hn⟩, fun hn => hn.2⟩

/-- C4 counterexample: in the text `---` / `a: b` / ` --- ` / `body`
the line ` --- ` strips to `---`, yet loading fails with the
missing-closing-delimiter error: the closing scan uses exact equality
(`lines.index("---", 1)`), not the trimmed comparison the claim
describes. -/
theorem load_close_delimiter_needs_exact_match :
    (∃ l ∈ ["a: b", " --- ", "body"], pyStrip l = "---") ∧
    load_rflow_file (fun _ => PyValue.dict []) "---\na: b\n --- \nbody" "f.rflow" =
      .error .missingClosingDelimiter :=
  ⟨by decide, rfl⟩

/-- C4 (amended): for text whose first line strips to `---`, the
closing delimiter is the first subsequent line *exactly* equal to `---`
(a line such as ` --- ` does not close the front matter), and the
missing-closing-delimiter error occurs precisely when no subsequent
line equals `---` exactly. -/
theorem load_missing_close_iff_no_exact_delimiter
    (parseYaml : String → PyValue) (text path first : String)
    (rest : List String) (hsplit : pySplitlines text = first :: rest)
    (hfirst : pyStrip first = "---") :
    load_rflow_file parseYaml text path = .error .missingClosingDelimiter ↔
      "---" ∉ rest := by
  rw [load_rflow_file, hsplit]
  rcases h : findCloseIdx rest with _ | k
  · simp [loadFromLines, hfirst, h, (findCloseIdx_eq_none_iff rest).1 h]
  · have hm : "---" ∈ rest := by
      by_contra hn
      rw [← findCloseIdx_eq_none_iff rest] at hn
      simp [h] at hn
    simp [loadFromLines, hfirst, h, hm]

/-- Witness for C4 on the text `---` / `x` (no closing line at all). -/
theorem load_missing_close_iff_no_exact_delimiter_witness :
    (load_rflow_file (fun _ => PyValue.dict []) "---\nx" "p" =
      .error .missingClosingDelimiter) ↔ "---" ∉ ["x"] :=
  load_missing_close_iff_no_exact_delimiter (fun _ => PyValue.dict []) "---\nx" "p"
    "---" ["x"] (by decide) (by decide)

/-! ## Claim C5 -/

theorem tagsFoldl_apply (item : IndexItem) (t : String) :
    ∀ (tags : List String) (m : String → List IndexItem),
      (tags.foldl (fun m tg s => if s = tg then m s ++ [item] else m s) m) t =
        m t ++ (tags.filter (fun x => x == t)).map (fun _ => item) := by
  intro tags
  induction tags with
  | nil => intro m; simp
  | cons tg tags ih =>
    intro m
    simp only [List.foldl_cons, ih, List.filter_cons]
    by_cases h : tg = t
    · subst h
      simp
    · have hb : (tg == t) = false := by simp [h]
      have ht : ¬ t = tg := fun hh => h hh.symm
      simp [hb, ht]

theorem tagMapAdd_apply (m : String → List IndexItem) (item : IndexItem)
    (t : String) :
    tagMapAdd m item t =
      m t ++ (item.tags.filter (fun x => x == t)).map (fun _ => item) :=
  tagsFoldl_apply item t item.tags m

theorem buildTagMap_foldl (t : String) :
    ∀ (items : List IndexItem) (m : String → List IndexItem),
      (items.foldl tagMapAdd m) t =
        m t ++ items.flatMap
          (fun i => (i.tags.filter (fun x => x == t)).map (fun _ => i)) := by
  intro items
  induction items with
  | nil => intro m; simp
  | cons i items ih =>
    intro m
    simp only [List.foldl_cons, ih, tagMapAdd_apply, List.flatMap_cons,
      List.append_assoc]

theorem filter_tag_of_count_le_one (i : IndexItem) (t : String)
    (h : i.tags.count t ≤ 1) :
    (i.tags.filter (fun x => x == t)).map (fun _ => i) =
      if t ∈ i.tags then [i] else [] := by
  rw [List.filter_beq, List.map_replicate]
  by_cases hm : t ∈ i.tags
  · have h1 : i.tags.count t = 1 :=
      Nat.le_antisymm h (List.count_pos_iff.2 hm)
    simp [hm, h1]
  · have h0 : i.tags.count t = 0 := List.count_eq_zero.2 hm
    simp [hm, h0]

/-- The example documents of the spec's tag-aggregation property: two
notes (N1 dated 2024-01-01 with tag `x`, N2 dated 2024-03-01 untagged)
and one experiment (E1 dated 2024-02-01 with tag `x`). -/
def n1Doc : SiteDocument :=
  { kind := "note", slug := "n1", sourcePath := "notes/n1.rflow",
    document :=
      { metadata := .dict
          [("title", .str "N1"), ("date", .str "2024-01-01"),
           ("tags", .list [.str "x"])],
        blocks := [], path := "notes/n1.rflow" } }

/-- Second note of the tag-aggregation example (untagged). -/
def n2Doc : SiteDocument :=
  { kind := "note", slug := "n2", sourcePath := "notes/n2.rflow",
    document :=
      { metadata := .dict
          [("title", .str "N2"), ("date", .str "2024-03-01")],
        blocks := [], path := "notes/n2.rflow" } }

/-- Experiment of the tag-aggregation example. -/
def e1Doc : SiteDocument :=
  { kind := "experiment", slug := "e1", sourcePath := "experiments/e1.rflow",
    document :=
      { metadata := .dict
          [("title", .str "E1"), ("date", .str "2024-02-01"),
           ("tags", .list [.str "x"])],
        blocks := [], path := "experiments/e1.rflow" } }

/-- A note whose metadata lists the same tag twice. -/
def dupTagDoc : SiteDocument :=
  { kind := "note", slug := "dup", sourcePath := "notes/dup.rflow",
    document :=
      { metadata := .dict
          [("title", .str "Dup"), ("date", .str "2024-01-01"),
           ("tags", .list [.str "x", .str "x"])],
        blocks := [], path := "notes/dup.rflow" } }

/-- C5 counterexample: a note carrying the tag `x` twice appears twice
in the tag-map entry for `x`, so the entry is not the restriction of
the notes-then-experiments list to items carrying the tag (the loop
appends once per tag occurrence, not once per item). -/
theorem tagMap_duplicate_tag_example :
    (buildTagMapOfDocs [dupTagDoc] "x").length = 2 ∧
    (((buildIndexLists [dupTagDoc]).1 ++ (buildIndexLists [dupTagDoc]).2).filter
        (fun i => "x" ∈ i.tags)).length = 1 ∧
    buildTagMapOfDocs [dupTagDoc] "x" ≠
      ((buildIndexLists [dupTagDoc]).1 ++ (buildIndexLists [dupTagDoc]).2).filter
        (fun i => "x" ∈ i.tags) :=
  ⟨rfl, rfl, fun h => absurd (congrArg List.length h) (by decide)⟩

/-- C5 (amended): the tag-map entry for a tag is obtained by walking
the post-sort notes list followed by the post-sort experiments list and
appending each item once per occurrence of the tag in its tag list;
when no item repeats a tag this is exactly the restriction to items
carrying the tag.  In particular, for notes N1 (2024-01-01, tags [x]),
N2 (2024-03-01) and experiment E1 (2024-02-01, tags [x]), the entry for
`x` lists N1 before E1 despite E1's later date. -/
theorem tagMap_characterization :
    (∀ (items : List IndexItem) (t : String),
      buildTagMap items t =
        items.flatMap
          (fun i => (i.tags.filter (fun x => x == t)).map (fun _ => i))) ∧
    (∀ (items : List IndexItem) (t : String),
      (∀ i ∈ items, i.tags.count t ≤ 1) →
      buildTagMap items t = items.filter (fun i => t ∈ i.tags)) ∧
    buildTagMapOfDocs [n1Doc, n2Doc, e1Doc] "x" =
      [documentToIndexItem n1Doc, documentToIndexItem e1Doc] := by
  have hchar : ∀ (items : List IndexItem) (t : String),
      buildTagMap items t =
        items.flatMap
          (fun i => (i.tags.filter (fun x => x == t)).map (fun _ => i)) := by
    intro items t
    simpa using buildTagMap_foldl t items (fun _ => [])
  refine ⟨hchar, ?_, rfl⟩
  intro items t h
  rw [hchar]
  induction items with
  | nil => rfl
  | cons i items ih =>
    rw [List.flatMap_cons,
      filter_tag_of_count_le_one i t (h i (by simp)),
      List.filter_cons,
      ih (fun x hx => h x (by simp [hx]))]
    by_cases hm : t ∈ i.tags
    · simp [hm]
    · simp [hm]

/-- Witness for C5's duplicate-free restriction at N1's index item. -/
theorem tagMap_characterization_witness :
    buildTagMap [documentToIndexItem n1Doc] "x" =
      [documentToIndexItem n1Doc].filter (fun i => "x" ∈ i.tags) :=
  tagMap_characterization.2.1 [documentToIndexItem n1Doc] "x" (by decide)

/-! ## Claim C7 -/

theorem toList_append (s t : String) : (s ++ t).toList = s.toList ++ t.toList := rfl

theorem mk_toList (s : String) : String.mk s.toList = s := rfl

theorem mem_joinLines_toList :
    ∀ (ls : List String) (l : String), l ∈ ls →
      ∀ c ∈ l.toList, c ∈ (joinLines ls).toList := by
  intro ls
  induction ls with
  | nil =>
    intro l hl
    cases hl
  | cons a rest ih =>
    intro l hl c hc
    cases rest with
    | nil =>
      have ha : l = a := by simpa using hl
      subst ha
      simpa [joinLines] using hc
    | cons b bs =>
      rcases List.mem_cons.1 hl with rfl | hl2
      · show c ∈ (l ++ "\n" ++ joinLines (b :: bs)).toList
        rw [toList_append, toList_append]
        exact List.mem_append_left _ (List.mem_append_left _ hc)
      · show c ∈ (a ++ "\n" ++ joinLines (b :: bs)).toList
        rw [toList_append]
        exact List.mem_append_right _ (ih l hl2 c hc)

/-- C7 counterexample: for inner lines consisting of a single blank
line, the Summary and Log sub-parsers produce the *same* content (the
empty string), although the input begins with a blank line. -/
theorem summary_log_agree_on_blank_only :
    ([""].head? = some "") ∧ summaryContent [""] = "" ∧ logContent [""] = "" :=
  ⟨rfl, by decide, by decide⟩

/-- C7 (amended): Summary content strips newline characters from both
ends of the joined lines while Log strips only trailing ones; the two
differ on any inner line list (newline-free, as produced by
`splitlines`) that begins with an empty line *and* contains at least
one non-empty line — when every line is empty both contents coincide,
as the counterexample shows. -/
theorem summary_log_content_difference :
    (∀ ls, summaryContent ls = stripNl (joinLines ls)) ∧
    (∀ ls, logContent ls = rstripNl (joinLines ls)) ∧
    ∀ (ls : List String),
      (∀ l ∈ ls, ∀ c ∈ l.toList, c ≠ '\n') →
      ls.head? = some "" →
      (∃ l ∈ ls, l ≠ "") →
      summaryContent ls ≠ logContent ls := by
  refine ⟨fun ls => rfl, fun ls => rfl, ?_⟩
  intro ls hnl hhead hex
  cases ls with
  | nil => cases hhead
  | cons a rest =>
    have ha : a = "" := by simpa using hhead
    subst ha
    obtain ⟨l, hl, hlne⟩ := hex
    have hlrest : l ∈ rest := by
      rcases List.mem_cons.1 hl with rfl | h2
      · exact absurd rfl hlne
      · exact h2
    cases rest with
    | nil => cases hlrest
    | cons b bs =>
      -- the joined text starts with a newline and contains a non-newline
      have hs : (joinLines ("" :: b :: bs)).toList =
          '\n' :: (joinLines (b :: bs)).toList := by
        show (("" ++ "\n" ++ joinLines (b :: bs))).toList = _
        rw [toList_append, toList_append]
        rfl
      obtain ⟨c, hc⟩ : ∃ c, c ∈ l.toList := by
        cases hle : l.toList with
        | nil => exact absurd (by rw [← mk_toList l, hle]) hlne
        | cons c cs => exact ⟨c, by simp [hle]⟩
      have hcd : c ∈ (joinLines (b :: bs)).toList :=
        mem_joinLines_toList (b :: bs) l hlrest c hc
      have hcne : c ≠ '\n' := hnl l hl c hc
      set p : Char → Bool := fun c => c == '\n' with hp
      set d : List Char := (joinLines (b :: bs)).toList with hd
      have hrne : d.reverse.dropWhile p ≠ [] := by
        intro h0
        have := (List.dropWhile_eq_nil_iff).1 h0 c (List.mem_reverse.2 hcd)
        simp [hp] at this
        exact hcne this
      have hrstrip : (rstripNl (joinLines ("" :: b :: bs))).toList =
          '\n' :: (d.reverse.dropWhile p).reverse := by
        show ((joinLines ("" :: b :: bs)).toList.reverse.dropWhile p).reverse = _
        rw [hs, List.reverse_cons, List.dropWhile_append]
        have hemp : (List.dropWhile p d.reverse).isEmpty = false := by
          simp [List.isEmpty_iff, hrne]
        rw [hemp]
        simp
      intro heq
      have htl := congrArg String.toList heq
      have hsl : (summaryContent ("" :: b :: bs)).toList =
          ((rstripNl (joinLines ("" :: b :: bs))).toList).dropWhile p := rfl
      rw [hsl, hrstrip] at htl
      have hstep : List.dropWhile p ('\n' :: (d.reverse.dropWhile p).reverse) =
          List.dropWhile p ((d.reverse.dropWhile p).reverse) := by
        rw [List.dropWhile_cons]
        simp [hp]
      rw [hstep] at htl
      have hlen := congrArg List.length htl
      have hle2 : (List.dropWhile p ((d.reverse.dropWhile p).reverse)).length ≤
          ((d.reverse.dropWhile p).reverse).length :=
        (List.dropWhile_sublist p).length_le
      rw [show (logContent ("" :: b :: bs)).toList =
          (rstripNl (joinLines ("" :: b :: bs))).toList from rfl, hrstrip] at hlen
      simp only [List.length_cons] at hlen
      omega

/-- Witness for C7 at the inner lines `["", "x"]`. -/
theorem summary_log_content_difference_witness :
    summaryContent ["", "x"] ≠ logContent ["", "x"] :=
  summary_log_content_difference.2.2 ["", "x"] (by decide) (by decide)
    ⟨"x", by decide, by decide⟩

end ResearchFlow
